import Mathlib

/-!
Verification development for the Cheese-KakaoTalk chess bot (Go repository).

The development shallowly embeds the PvP match core (`internal/pvpchess/manager.go`,
first/current version in the file), the channel lobby (`pvpchan`, current version
as in the unnamed part files, which match the package tests), the ingress router
and fanout helpers of the current `main` (unnamed part_020), and a model of the
external chess rules engine (`github.com/corentings/chess/v2`), which is an
out-of-repository collaborator specified by spec section 4.B: pure move
validation, UCI/SAN decoding, terminal-outcome detection, FEN production.

Machine integers do not occur on the verified paths; Go slices become Lean
lists, Go maps become association lists, `time.Time` becomes `Nat`, and the
Redis store becomes explicit state passing.  Randomness (crypto coin flips,
generated ids and codes) is threaded as explicit inputs.
-/

namespace CheeseBot

/-! ### Go-style string helpers

`strings.TrimSpace` trims Unicode white space; the characters that can actually
occur around chat commands are the ASCII spaces plus NEL and NBSP, which is the
set modelled here.  `strings.ToLower` is modelled on ASCII letters. -/

def isGoSpace (c : Char) : Bool :=
  c = ' ' || c = '\t' || c = '\n' || c = (Char.ofNat 11) || c = (Char.ofNat 12) ||
  c = '\r' || c = (Char.ofNat 133) || c = (Char.ofNat 160)

def trimLeftL (l : List Char) : List Char := l.dropWhile isGoSpace

def trimRightL (l : List Char) : List Char := (l.reverse.dropWhile isGoSpace).reverse

def goTrimL (l : List Char) : List Char := trimRightL (trimLeftL l)

def goTrim (s : String) : String := ⟨goTrimL s.data⟩

def lowerChar (c : Char) : Char :=
  if 65 ≤ c.toNat ∧ c.toNat ≤ 90 then Char.ofNat (c.toNat + 32) else c

def asciiLower (s : String) : String := ⟨s.data.map lowerChar⟩

/-! ### Chess rules engine model (external collaborator, spec 4.B)

Squares are `Nat` indices `0..63`, `a1 = 0`, `h8 = 63`.  A move is an
origin/destination pair with an optional promotion piece, which is how the
library's UCI layer identifies moves; capture/castle/en-passant effects are
recomputed from the position when the move is applied. -/

inductive PColor | white | black
deriving DecidableEq, Repr

def otherColor : PColor → PColor
  | .white => .black
  | .black => .white

inductive PieceKind | pawn | knight | bishop | rook | queen | king
deriving DecidableEq, Repr

structure Piece where
  color : PColor
  kind : PieceKind
deriving DecidableEq, Repr

abbrev Board := List (Option Piece)

def pieceAt (b : Board) (i : Nat) : Option Piece := (b.get? i).getD none

structure ChessPos where
  board : Board
  turn : PColor
  castleWK : Bool
  castleWQ : Bool
  castleBK : Bool
  castleBQ : Bool
  ep : Option Nat
  halfmove : Nat
  fullmove : Nat
deriving DecidableEq, Repr

structure CMove where
  src : Nat
  dst : Nat
  promo : Option PieceKind
deriving DecidableEq, Repr

def backRankW : List (Option Piece) :=
  [some ⟨.white, .rook⟩, some ⟨.white, .knight⟩, some ⟨.white, .bishop⟩,
   some ⟨.white, .queen⟩, some ⟨.white, .king⟩, some ⟨.white, .bishop⟩,
   some ⟨.white, .knight⟩, some ⟨.white, .rook⟩]

def backRankB : List (Option Piece) :=
  [some ⟨.black, .rook⟩, some ⟨.black, .knight⟩, some ⟨.black, .bishop⟩,
   some ⟨.black, .queen⟩, some ⟨.black, .king⟩, some ⟨.black, .bishop⟩,
   some ⟨.black, .knight⟩, some ⟨.black, .rook⟩]

def startBoard : Board :=
  backRankW ++ List.replicate 8 (some ⟨.white, .pawn⟩) ++ List.replicate 32 none ++
  List.replicate 8 (some ⟨.black, .pawn⟩) ++ backRankB

def startPos : ChessPos :=
  { board := startBoard, turn := .white,
    castleWK := true, castleWQ := true, castleBK := true, castleBQ := true,
    ep := none, halfmove := 0, fullmove := 1 }

def fileOf (i : Nat) : Nat := i % 8
def rankOf (i : Nat) : Nat := i / 8

/-- Absolute difference on `Nat`. -/
def dd (a b : Nat) : Nat := max a b - min a b

/-- Direction increment (as an `Int` square offset) from `a` towards `b`
when the two squares share a rank, file, or diagonal. -/
def stepDir (a b : Nat) : Option Int :=
  let df : Int := (fileOf b : Int) - (fileOf a : Int)
  let dr : Int := (rankOf b : Int) - (rankOf a : Int)
  if a = b then none
  else if df = 0 then some (if dr > 0 then 8 else -8)
  else if dr = 0 then some (if df > 0 then 1 else -1)
  else if df = dr then some (if df > 0 then 9 else -9)
  else if df = -dr then some (if df > 0 then -7 else 7)
  else none

def walkBetween (b : Nat) (d : Int) : Nat → Int → List Nat
  | 0, _ => []
  | fuel + 1, cur => if cur = (b : Int) then [] else cur.toNat :: walkBetween b d fuel (cur + d)

/-- Squares strictly between `a` and `b` along their shared line (empty if none). -/
def squaresBetween (a b : Nat) : List Nat :=
  match stepDir a b with
  | none => []
  | some d => walkBetween b d 7 ((a : Int) + d)

def pathClear (bd : Board) (a b : Nat) : Bool :=
  (squaresBetween a b).all fun i => (pieceAt bd i).isNone

/-- Does the piece `p` standing on `s` attack square `t` (ignoring whose turn it is)? -/
def pseudoAttack (bd : Board) (s : Nat) (p : Piece) (t : Nat) : Bool :=
  let fs := fileOf s; let rs := rankOf s
  let ft := fileOf t; let rt := rankOf t
  match p.kind with
  | .pawn =>
    (dd fs ft = 1 : Bool) &&
    (match p.color with
     | .white => rt = rs + 1
     | .black => rt + 1 = rs)
  | .knight => (dd fs ft = 1 && dd rs rt = 2 : Bool) || (dd fs ft = 2 && dd rs rt = 1 : Bool)
  | .bishop => (dd fs ft = dd rs rt && s ≠ t : Bool) && pathClear bd s t
  | .rook => ((fs = ft || rs = rt) && s ≠ t : Bool) && pathClear bd s t
  | .queen => ((fs = ft || rs = rt || dd fs ft = dd rs rt) && s ≠ t : Bool) && pathClear bd s t
  | .king => (dd fs ft ≤ 1 && dd rs rt ≤ 1 && s ≠ t : Bool)

def attacked (bd : Board) (atk : PColor) (t : Nat) : Bool :=
  (List.range 64).any fun s =>
    match pieceAt bd s with
    | some p => p.color = atk && pseudoAttack bd s p t
    | none => false

def kingSq (bd : Board) (c : PColor) : Option Nat :=
  (List.range 64).find? fun s => pieceAt bd s = some ⟨c, .king⟩

def inCheck (pos : ChessPos) (c : PColor) : Bool :=
  match kingSq pos.board c with
  | some k => attacked pos.board (otherColor c) k
  | none => false

/-- Only the four promotion pieces (or no promotion) may appear on a move. -/
def promoValid : Option PieceKind → Bool
  | none => true
  | some .knight => true
  | some .bishop => true
  | some .rook => true
  | some .queen => true
  | _ => false

def isPromoRank (c : PColor) (r : Nat) : Bool :=
  match c with
  | .white => r = 7
  | .black => r = 0

def pawnMoveOk (pos : ChessPos) (m : CMove) (c : PColor) : Bool :=
  let bd := pos.board
  let fs := fileOf m.src; let rs := rankOf m.src
  let ft := fileOf m.dst; let rt := rankOf m.dst
  let oneFwd : Bool := match c with | .white => rt = rs + 1 | .black => rt + 1 = rs
  let dblFwd : Bool :=
    match c with
    | .white => rs = 1 && rt = 3 && (pieceAt bd (m.src + 8)).isNone
    | .black => rs = 6 && rt = 4 && (pieceAt bd (m.dst + 8)).isNone
  let fwd : Bool := (ft = fs : Bool) && (pieceAt bd m.dst).isNone && (oneFwd || dblFwd)
  let capt : Bool :=
    (dd fs ft = 1 : Bool) && oneFwd &&
    ((pieceAt bd m.dst).isSome || pos.ep = some m.dst)
  let promoRule : Bool :=
    if isPromoRank c rt then m.promo.isSome else m.promo = none
  (fwd || capt) && promoRule

def castleOk (pos : ChessPos) (m : CMove) : Bool :=
  let bd := pos.board
  let emptyAt (i : Nat) : Bool := (pieceAt bd i).isNone
  match pos.turn with
  | .white =>
    ((m.src = 4 && m.dst = 6 : Bool) && pos.castleWK && emptyAt 5 && emptyAt 6 &&
      (pieceAt bd 7 = some ⟨.white, .rook⟩ : Bool) &&
      !attacked bd .black 4 && !attacked bd .black 5 && !attacked bd .black 6) ||
    ((m.src = 4 && m.dst = 2 : Bool) && pos.castleWQ && emptyAt 1 && emptyAt 2 && emptyAt 3 &&
      (pieceAt bd 0 = some ⟨.white, .rook⟩ : Bool) &&
      !attacked bd .black 4 && !attacked bd .black 3 && !attacked bd .black 2)
  | .black =>
    ((m.src = 60 && m.dst = 62 : Bool) && pos.castleBK && emptyAt 61 && emptyAt 62 &&
      (pieceAt bd 63 = some ⟨.black, .rook⟩ : Bool) &&
      !attacked bd .white 60 && !attacked bd .white 61 && !attacked bd .white 62) ||
    ((m.src = 60 && m.dst = 58 : Bool) && pos.castleBQ && emptyAt 57 && emptyAt 58 && emptyAt 59 &&
      (pieceAt bd 56 = some ⟨.black, .rook⟩ : Bool) &&
      !attacked bd .white 60 && !attacked bd .white 59 && !attacked bd .white 58)

def isPseudoLegal (pos : ChessPos) (m : CMove) : Bool :=
  decide (m.src < 64) && decide (m.dst < 64) && (m.src ≠ m.dst : Bool) &&
  promoValid m.promo &&
  match pieceAt pos.board m.src with
  | none => false
  | some p =>
    (p.color = pos.turn : Bool) &&
    (match pieceAt pos.board m.dst with
     | some q => (q.color ≠ pos.turn : Bool)
     | none => true) &&
    (match p.kind with
     | .pawn => pawnMoveOk pos m p.color
     | .knight =>
       (m.promo = none : Bool) &&
       ((dd (fileOf m.src) (fileOf m.dst) = 1 && dd (rankOf m.src) (rankOf m.dst) = 2 : Bool) ||
        (dd (fileOf m.src) (fileOf m.dst) = 2 && dd (rankOf m.src) (rankOf m.dst) = 1 : Bool))
     | .bishop =>
       (m.promo = none : Bool) &&
       (dd (fileOf m.src) (fileOf m.dst) = dd (rankOf m.src) (rankOf m.dst) : Bool) &&
       pathClear pos.board m.src m.dst
     | .rook =>
       (m.promo = none : Bool) &&
       (fileOf m.src = fileOf m.dst || rankOf m.src = rankOf m.dst : Bool) &&
       pathClear pos.board m.src m.dst
     | .queen =>
       (m.promo = none : Bool) &&
       (fileOf m.src = fileOf m.dst || rankOf m.src = rankOf m.dst ||
        dd (fileOf m.src) (fileOf m.dst) = dd (rankOf m.src) (rankOf m.dst) : Bool) &&
       pathClear pos.board m.src m.dst
     | .king =>
       (m.promo = none : Bool) &&
       ((dd (fileOf m.src) (fileOf m.dst) ≤ 1 && dd (rankOf m.src) (rankOf m.dst) ≤ 1 : Bool) ||
        castleOk pos m))

def applyMove (pos : ChessPos) (m : CMove) : ChessPos :=
  match pieceAt pos.board m.src with
  | none => pos
  | some p =>
    let bd := pos.board
    let isPawn : Bool := p.kind = .pawn
    let isEpCap : Bool :=
      isPawn && (pos.ep = some m.dst : Bool) && (fileOf m.src ≠ fileOf m.dst : Bool) &&
      (pieceAt bd m.dst).isNone
    let epVictim : Nat := match p.color with | .white => m.dst - 8 | .black => m.dst + 8
    let isCapture : Bool := (pieceAt bd m.dst).isSome || isEpCap
    let moved : Piece := match m.promo with | some k => ⟨p.color, k⟩ | none => p
    let bd1 := bd.set m.src none
    let bd2 := if isEpCap then bd1.set epVictim none else bd1
    let bd3 := bd2.set m.dst (some moved)
    let bd4 :=
      if (p.kind = .king : Bool) && (m.src = 4 && m.dst = 6 : Bool) then
        (bd3.set 7 none).set 5 (some ⟨.white, .rook⟩)
      else if (p.kind = .king : Bool) && (m.src = 4 && m.dst = 2 : Bool) then
        (bd3.set 0 none).set 3 (some ⟨.white, .rook⟩)
      else if (p.kind = .king : Bool) && (m.src = 60 && m.dst = 62 : Bool) then
        (bd3.set 63 none).set 61 (some ⟨.black, .rook⟩)
      else if (p.kind = .king : Bool) && (m.src = 60 && m.dst = 58 : Bool) then
        (bd3.set 56 none).set 59 (some ⟨.black, .rook⟩)
      else bd3
    let ep' : Option Nat :=
      if isPawn && (dd (rankOf m.src) (rankOf m.dst) = 2 : Bool) &&
         (fileOf m.src = fileOf m.dst : Bool) then
        some (match p.color with | .white => m.src + 8 | .black => m.src - 8)
      else none
    { board := bd4
      turn := otherColor pos.turn
      castleWK := pos.castleWK && (m.src ≠ 4 && m.src ≠ 7 && m.dst ≠ 7 : Bool)
      castleWQ := pos.castleWQ && (m.src ≠ 4 && m.src ≠ 0 && m.dst ≠ 0 : Bool)
      castleBK := pos.castleBK && (m.src ≠ 60 && m.src ≠ 63 && m.dst ≠ 63 : Bool)
      castleBQ := pos.castleBQ && (m.src ≠ 60 && m.src ≠ 56 && m.dst ≠ 56 : Bool)
      ep := ep'
      halfmove := if isPawn || isCapture then 0 else pos.halfmove + 1
      fullmove := match pos.turn with | .black => pos.fullmove + 1 | .white => pos.fullmove }

def isLegalMove (pos : ChessPos) (m : CMove) : Bool :=
  isPseudoLegal pos m && !inCheck (applyMove pos m) pos.turn

/-- Promotion alternatives generated for a move from `s` to `d` in `pos`. -/
def promosFor (pos : ChessPos) (s d : Nat) : List (Option PieceKind) :=
  match pieceAt pos.board s with
  | some ⟨c, .pawn⟩ =>
    if isPromoRank c (rankOf d) then [some .knight, some .bishop, some .rook, some .queen]
    else [none]
  | _ => [none]

def movesFromSq (pos : ChessPos) (s : Nat) : List CMove :=
  (List.range 64).flatMap fun d => (promosFor pos s d).map fun pr => ⟨s, d, pr⟩

def existsLegalMove (pos : ChessPos) : Bool :=
  (List.range 64).any fun s => (movesFromSq pos s).any (isLegalMove pos)

def legalMovesList (pos : ChessPos) : List CMove :=
  (List.range 64).flatMap fun s => (movesFromSq pos s).filter (isLegalMove pos)

inductive GOutcome | whiteWon | blackWon | drawn
deriving DecidableEq, Repr

/-- Terminal-outcome indicator after a position is reached (spec 4.B):
checkmate gives the mover the win, stalemate is a draw, otherwise none. -/
def outcomeOf (pos : ChessPos) : Option GOutcome :=
  if existsLegalMove pos then none
  else if inCheck pos pos.turn then
    some (match pos.turn with | .white => .blackWon | .black => .whiteWon)
  else some .drawn

/-! #### Square and move notation -/

def fileChar : Nat → Char
  | 0 => 'a' | 1 => 'b' | 2 => 'c' | 3 => 'd' | 4 => 'e' | 5 => 'f' | 6 => 'g' | 7 => 'h'
  | _ => '?'

def rankChar : Nat → Char
  | 0 => '1' | 1 => '2' | 2 => '3' | 3 => '4' | 4 => '5' | 5 => '6' | 6 => '7' | 7 => '8'
  | _ => '?'

def charFile (c : Char) : Option Nat :=
  match c with
  | 'a' => some 0 | 'b' => some 1 | 'c' => some 2 | 'd' => some 3
  | 'e' => some 4 | 'f' => some 5 | 'g' => some 6 | 'h' => some 7
  | _ => none

def charRank (c : Char) : Option Nat :=
  match c with
  | '1' => some 0 | '2' => some 1 | '3' => some 2 | '4' => some 3
  | '5' => some 4 | '6' => some 5 | '7' => some 6 | '8' => some 7
  | _ => none

def promoChar : PieceKind → Char
  | .knight => 'n' | .bishop => 'b' | .rook => 'r' | .queen => 'q'
  | .pawn => '?' | .king => '?'

def promoOfChar (c : Char) : Option PieceKind :=
  match c with
  | 'n' => some .knight | 'b' => some .bishop | 'r' => some .rook | 'q' => some .queen
  | _ => none

def sqName (i : Nat) : List Char := [fileChar (fileOf i), rankChar (rankOf i)]

def uciOfMove (m : CMove) : String :=
  ⟨sqName m.src ++ sqName m.dst ++ (match m.promo with | some k => [promoChar k] | none => [])⟩

def parseUciL : List Char → Option CMove
  | [a, b, c, d] =>
    match charFile a, charRank b, charFile c, charRank d with
    | some f1, some r1, some f2, some r2 => some ⟨r1 * 8 + f1, r2 * 8 + f2, none⟩
    | _, _, _, _ => none
  | [a, b, c, d, e] =>
    match charFile a, charRank b, charFile c, charRank d, promoOfChar e with
    | some f1, some r1, some f2, some r2, some pk => some ⟨r1 * 8 + f1, r2 * 8 + f2, some pk⟩
    | _, _, _, _, _ => none
  | _ => none

def parseUci (s : String) : Option CMove := parseUciL s.data

/-- UCI decoding validates the parsed move against the position's legal moves,
as the library's notation decoder does. -/
def uciDecode (pos : ChessPos) (s : String) : Option CMove :=
  match parseUci s with
  | none => none
  | some m => if isLegalMove pos m then some m else none

def pieceLetter : PieceKind → List Char
  | .pawn => [] | .knight => ['N'] | .bishop => ['B'] | .rook => ['R']
  | .queen => ['Q'] | .king => ['K']

/-- Standard algebraic notation of a legal move (piece letter, disambiguation,
capture marker, destination, promotion, check or mate suffix). -/
def sanEncode (pos : ChessPos) (m : CMove) : String :=
  let bd := pos.board
  let pos2 := applyMove pos m
  let checkSfx : List Char :=
    if inCheck pos2 pos2.turn then (if existsLegalMove pos2 then ['+'] else ['#']) else []
  match pieceAt bd m.src with
  | none => ""
  | some p =>
    if (p.kind = .king : Bool) && (dd (fileOf m.src) (fileOf m.dst) = 2 : Bool) then
      ⟨(if fileOf m.dst = 6 then ['O', '-', 'O'] else ['O', '-', 'O', '-', 'O']) ++ checkSfx⟩
    else
      let isCapture : Bool :=
        (pieceAt bd m.dst).isSome ||
        ((p.kind = .pawn : Bool) && (fileOf m.src ≠ fileOf m.dst : Bool))
      let promoSfx : List Char :=
        match m.promo with | some k => ['=', (lowerChar (promoChar k)).toUpper] | none => []
      let disamb : List Char :=
        match p.kind with
        | .pawn => if isCapture then [fileChar (fileOf m.src)] else []
        | _ =>
          let others := (legalMovesList pos).filter fun m2 =>
            (m2.dst = m.dst : Bool) && (m2.src ≠ m.src : Bool) &&
            (match pieceAt bd m2.src with
             | some q => (q.kind = p.kind : Bool)
             | none => false)
          if others.isEmpty then []
          else if others.all fun m2 => fileOf m2.src ≠ fileOf m.src then
            [fileChar (fileOf m.src)]
          else if others.all fun m2 => rankOf m2.src ≠ rankOf m.src then
            [rankChar (rankOf m.src)]
          else [fileChar (fileOf m.src), rankChar (rankOf m.src)]
      ⟨pieceLetter p.kind ++ disamb ++ (if isCapture then ['x'] else []) ++
        sqName m.dst ++ promoSfx ++ checkSfx⟩

/-- Decorations the SAN reader ignores when matching a move. -/
def sanStrip (s : String) : String :=
  ⟨s.data.filter fun c => c ≠ '+' && c ≠ '#' && c ≠ '!' && c ≠ '?'⟩

/-- SAN decoding resolves the text against the legal moves of the position. -/
def sanDecode (pos : ChessPos) (s : String) : Option CMove :=
  (legalMovesList pos).find? fun m => sanStrip (sanEncode pos m) = sanStrip (goTrim s)

/-! #### FEN rendering -/

def emptyRunChar : Nat → Char
  | 1 => '1' | 2 => '2' | 3 => '3' | 4 => '4' | 5 => '5' | 6 => '6' | 7 => '7' | 8 => '8'
  | _ => '?'

def pieceFenChar (p : Piece) : Char :=
  match p.color, p.kind with
  | .white, .pawn => 'P' | .white, .knight => 'N' | .white, .bishop => 'B'
  | .white, .rook => 'R' | .white, .queen => 'Q' | .white, .king => 'K'
  | .black, .pawn => 'p' | .black, .knight => 'n' | .black, .bishop => 'b'
  | .black, .rook => 'r' | .black, .queen => 'q' | .black, .king => 'k'

def fenRowAux (bd : Board) (r : Nat) : Nat → Nat → List Char
  | 0, run => if run = 0 then [] else [emptyRunChar run]
  | left + 1, run =>
    let f := 8 - (left + 1)
    match pieceAt bd (r * 8 + f) with
    | some p =>
      (if run = 0 then [] else [emptyRunChar run]) ++ pieceFenChar p :: fenRowAux bd r left 0
    | none => fenRowAux bd r left (run + 1)

def fenRow (bd : Board) (r : Nat) : List Char := fenRowAux bd r 8 0

def fenPlacement (bd : Board) : List Char :=
  fenRow bd 7 ++ '/' :: fenRow bd 6 ++ '/' :: fenRow bd 5 ++ '/' :: fenRow bd 4 ++
  '/' :: fenRow bd 3 ++ '/' :: fenRow bd 2 ++ '/' :: fenRow bd 1 ++ '/' :: fenRow bd 0

def fenCastle (pos : ChessPos) : List Char :=
  let l :=
    (if pos.castleWK then ['K'] else []) ++ (if pos.castleWQ then ['Q'] else []) ++
    (if pos.castleBK then ['k'] else []) ++ (if pos.castleBQ then ['q'] else [])
  if l.isEmpty then ['-'] else l

def fenOf (pos : ChessPos) : String :=
  ⟨fenPlacement pos.board ++ ' ' ::
    (match pos.turn with | .white => 'w' | .black => 'b') :: ' ' ::
    fenCastle pos ++ ' ' ::
    (match pos.ep with | some sq => sqName sq | none => ['-']) ++ ' ' ::
    (toString pos.halfmove).data ++ ' ' :: (toString pos.fullmove).data⟩

/-! ### PvP match core (`internal/pvpchess`, current version)

`Game` mirrors the persisted struct of `types.go`; `time.Time` fields become
`Nat` instants.  The Redis game key holds exactly one serialized game, so the
watch-transaction of `PlayMoveByRoom`/`ResignByRoom` is embedded as a pure
function from the current stored game to a transaction outcome. -/

inductive GameColor | white | black
deriving DecidableEq, Repr

inductive GStatus | active | finished | resigned | drawStatus | aborted
deriving DecidableEq, Repr

structure Game where
  id : String
  fen : String
  movesUCI : List String
  movesSAN : List String
  turn : GameColor
  status : GStatus
  whiteID : String
  whiteName : String
  blackID : String
  blackName : String
  originRoom : String
  resolveRoom : String
  createdAt : Nat
  updatedAt : Nat
  winner : String
  outcome : String
deriving DecidableEq, Repr

def colorFrom (c : PColor) : GameColor :=
  match c with | .white => .white | .black => .black

def opponentID (g : Game) (userID : String) : String :=
  if g.whiteID = userID then g.blackID
  else if g.blackID = userID then g.whiteID
  else ""

def playerColor (g : Game) (userID : String) : String :=
  if g.whiteID = userID then "white"
  else if g.blackID = userID then "black"
  else ""

/-- One `PushNotationMove` with UCI notation: decode against the current
position, then apply. -/
def applyUciStr (p : ChessPos) (s : String) : Option ChessPos :=
  (uciDecode p s).map (applyMove p)

def replayMoves (ms : List String) : Option ChessPos :=
  ms.foldlM applyUciStr startPos

/-- `reconstruct` of the current manager: always replays from the start
position by applying the stored UCI moves; the FEN argument is ignored
(applying it could double-apply moves). -/
def reconstruct (_fen : String) (moves : List String) : Option ChessPos :=
  replayMoves moves

inductive TxResult
  | txFailed
  | fatal (msg : String)
  | notYourTurn
  | illegalMove (text : String)
  | ok (g : Game) (text : String)
deriving DecidableEq, Repr

/-- Mutations applied to the working copy once a move has been validated:
append to both move lists, refresh FEN, turn and timestamp, then run the
terminal-outcome switch. -/
def commitMove (cur : Game) (uciS sanS : String) (p2 : ChessPos) (now : Nat) : Game :=
  let base :=
    { cur with
      movesUCI := cur.movesUCI ++ [uciS]
      movesSAN := cur.movesSAN ++ [sanS]
      fen := fenOf p2
      turn := colorFrom p2.turn
      updatedAt := now }
  match outcomeOf p2 with
  | some .whiteWon => { base with status := .finished, winner := base.whiteID, outcome := "white" }
  | some .blackWon => { base with status := .finished, winner := base.blackID, outcome := "black" }
  | some .drawn => { base with status := .drawStatus, outcome := "draw" }
  | none => base

/-- The body of the `Watch` closure of `PlayMoveByRoom` (manager.go:292-357),
acting on the game currently stored under the watched key. -/
def playMoveTx (oldLen : Nat) (userID roomID moveStr : String) (now : Nat)
    (cur : Game) : TxResult :=
  if cur.status ≠ .active then .txFailed
  else if cur.movesUCI.length ≠ oldLen then .txFailed
  else if ¬(goTrim cur.originRoom = goTrim roomID ∨ goTrim cur.resolveRoom = goTrim roomID) then
    .fatal "game not in room"
  else
    let pc := playerColor cur userID
    if pc = "" then .fatal "user not in game"
    else if (cur.turn = .white ∧ pc ≠ "white") ∨ (cur.turn = .black ∧ pc ≠ "black") then
      .notYourTurn
    else
      match reconstruct cur.fen cur.movesUCI with
      | none => .fatal "failed to reconstruct game"
      | some pos =>
        let rawMove := goTrim moveStr
        let uci := asciiLower rawMove
        if uci = "" then .illegalMove "잘못된 수 입력입니다."
        else
          match uciDecode pos uci with
          | some mv =>
            let g' := commitMove cur uci (sanEncode pos mv) (applyMove pos mv) now
            let who := if playerColor g' userID = "black" then g'.blackName else g'.whiteName
            .ok g' (who ++ ": " ++ goTrim moveStr)
          | none =>
            match sanDecode pos rawMove with
            | none => .illegalMove "유효하지 않은 수입니다."
            | some mv =>
              -- the SAN branch derives both SAN and UCI from the applied move
              let g' := commitMove cur (uciOfMove mv) (sanEncode pos mv) (applyMove pos mv) now
              let who := if playerColor g' userID = "black" then g'.blackName else g'.whiteName
              .ok g' (who ++ ": " ++ goTrim moveStr)

inductive ResignResult
  | txFailed
  | fatal (msg : String)
  | ok (g : Game)
deriving DecidableEq, Repr

/-- The body of the `Watch` closure of `ResignByRoom` (manager.go:435-455);
the room-scope comparison there uses the raw strings, without trimming. -/
def resignTx (userID roomID : String) (now : Nat) (cur : Game) : ResignResult :=
  if cur.status ≠ .active then .txFailed
  else if ¬(cur.originRoom = roomID ∨ cur.resolveRoom = roomID) then .fatal "game not in room"
  else .ok { cur with
    status := .resigned
    winner := opponentID cur userID
    outcome := "resign"
    updatedAt := now }

/-- Content of the game key after the transaction: replaced only on commit. -/
def playStored (oldLen : Nat) (userID roomID moveStr : String) (now : Nat)
    (cur : Game) : Game :=
  match playMoveTx oldLen userID roomID moveStr now cur with
  | .ok g' _ => g'
  | _ => cur

def resignStored (userID roomID : String) (now : Nat) (cur : Game) : Game :=
  match resignTx userID roomID now cur with
  | .ok g' => g'
  | _ => cur

/-- Observable result of a `PlayMoveByRoom` call: returned game pointer,
user-facing text, error, and the stored state afterwards. -/
structure MoveCallResult where
  game : Option Game
  text : String
  err : Option String
  stored : Game
deriving DecidableEq, Repr

/-- `PlayMoveByRoom` after the room-scoped lookup returned snapshot `g`
(manager.go:278-387): run the transaction against the stored game `cur` and
translate sentinel outcomes into message-level replies with a `nil` error. -/
def playMoveByRoomOn (g cur : Game) (userID roomID moveStr : String) (now : Nat) :
    MoveCallResult :=
  match playMoveTx g.movesUCI.length userID roomID moveStr now cur with
  | .ok g' t => ⟨some g', t, none, g'⟩
  | .txFailed => ⟨some g, "동시 명령이 감지되어 처리되지 않았습니다. 다시 시도해주세요.", none, cur⟩
  | .illegalMove t => ⟨some g, (if goTrim t = "" then "유효하지 않은 수입니다." else t), none, cur⟩
  | .notYourTurn => ⟨some g, "지금은 상대 차례입니다.", none, cur⟩
  | .fatal e => ⟨none, "", some e, cur⟩

/-- `CreateGameFromChallenge` (manager.go:56-102) with the generated id, the
crypto coin flip (`coin = true` means the `n == 0` swap branch) and the clock
as explicit inputs. -/
def mkGame (id : String) (coin : Bool)
    (originRoom resolveRoom challengerID challengerName targetID targetName
      colorChoice : String) (now : Nat) : Game :=
  let cv := asciiLower (goTrim colorChoice)
  let assigned :=
    if cv = "white" ∨ cv = "w" then (challengerID, challengerName, targetID, targetName)
    else if cv = "black" ∨ cv = "b" then (targetID, targetName, challengerID, challengerName)
    else if coin then (targetID, targetName, challengerID, challengerName)
    else (challengerID, challengerName, targetID, targetName)
  { id := id
    fen := "startpos"
    movesUCI := []
    movesSAN := []
    turn := .white
    status := .active
    whiteID := goTrim assigned.1
    whiteName := goTrim assigned.2.1
    blackID := goTrim assigned.2.2.1
    blackName := goTrim assigned.2.2.2
    originRoom := goTrim originRoom
    resolveRoom := goTrim resolveRoom
    createdAt := now
    updatedAt := now
    winner := ""
    outcome := "" }

/-- Game states produced by the match core: a freshly created game followed by
any number of committed `PlayMoveByRoom` transactions (moves on one game key
are serialized by the watch transaction, so the stored game seen by a commit
is the previous state). -/
inductive ReachableGame : Game → Prop
  | created (id : String) (coin : Bool)
      (originRoom resolveRoom challengerID challengerName targetID targetName
        colorChoice : String) (now : Nat)
      (hch : challengerID ≠ "") (htg : targetID ≠ "") :
      ReachableGame (mkGame id coin originRoom resolveRoom challengerID challengerName
        targetID targetName colorChoice now)
  | step {g g' : Game} {userID roomID moveStr t : String} {now : Nat}
      (hg : ReachableGame g)
      (hok : playMoveTx g.movesUCI.length userID roomID moveStr now g = .ok g' t) :
      ReachableGame g'

/-! ### Lemmas about the rules-engine model -/

theorem isPseudoLegal_bounds {pos : ChessPos} {m : CMove}
    (h : isPseudoLegal pos m = true) :
    m.src < 64 ∧ m.dst < 64 ∧ promoValid m.promo = true := by
  unfold isPseudoLegal at h
  simp only [Bool.and_eq_true, decide_eq_true_eq] at h
  exact ⟨h.1.1.1.1, h.1.1.1.2, h.1.2⟩

theorem isPseudoLegal_src_isSome {pos : ChessPos} {m : CMove}
    (h : isPseudoLegal pos m = true) : (pieceAt pos.board m.src).isSome = true := by
  cases hp : pieceAt pos.board m.src with
  | some p => rfl
  | none =>
    unfold isPseudoLegal at h
    rw [hp] at h
    simp at h

theorem isLegalMove_pseudo {pos : ChessPos} {m : CMove}
    (h : isLegalMove pos m = true) : isPseudoLegal pos m = true := by
  unfold isLegalMove at h
  simp only [Bool.and_eq_true] at h
  exact h.1

theorem applyMove_turn {pos : ChessPos} {m : CMove}
    (h : isPseudoLegal pos m = true) :
    (applyMove pos m).turn = otherColor pos.turn := by
  have hs := isPseudoLegal_src_isSome h
  obtain ⟨p, hp⟩ := Option.isSome_iff_exists.mp hs
  unfold applyMove
  rw [hp]

theorem charFile_fileChar {f : Nat} (h : f < 8) : charFile (fileChar f) = some f := by
  interval_cases f <;> rfl

theorem charRank_rankChar {r : Nat} (h : r < 8) : charRank (rankChar r) = some r := by
  interval_cases r <;> rfl

theorem promoOfChar_promoChar {k : PieceKind} (h : promoValid (some k) = true) :
    promoOfChar (promoChar k) = some k := by
  cases k <;> simp_all [promoValid, promoChar, promoOfChar]

theorem parse_uciOfMove {m : CMove} (h1 : m.src < 64) (h2 : m.dst < 64)
    (h3 : promoValid m.promo = true) : parseUci (uciOfMove m) = some m := by
  have hf1 : fileOf m.src < 8 := Nat.mod_lt _ (by norm_num)
  have hr1 : rankOf m.src < 8 := by unfold rankOf; omega
  have hf2 : fileOf m.dst < 8 := Nat.mod_lt _ (by norm_num)
  have hr2 : rankOf m.dst < 8 := by unfold rankOf; omega
  have hsrc : rankOf m.src * 8 + fileOf m.src = m.src := by unfold rankOf fileOf; omega
  have hdst : rankOf m.dst * 8 + fileOf m.dst = m.dst := by unfold rankOf fileOf; omega
  obtain ⟨ms, md, mp⟩ := m
  simp only at h1 h2 hf1 hr1 hf2 hr2 hsrc hdst
  cases mp with
  | none =>
    show parseUciL (sqName ms ++ sqName md ++ []) = some ⟨ms, md, none⟩
    simp only [sqName, List.append_nil, List.cons_append, List.nil_append, parseUciL]
    rw [charFile_fileChar hf1, charRank_rankChar hr1, charFile_fileChar hf2,
      charRank_rankChar hr2]
    simp [hsrc, hdst]
  | some k =>
    simp only at h3
    show parseUciL (sqName ms ++ sqName md ++ [promoChar k]) = some ⟨ms, md, some k⟩
    simp only [sqName, List.cons_append, List.nil_append, parseUciL]
    rw [charFile_fileChar hf1, charRank_rankChar hr1, charFile_fileChar hf2,
      charRank_rankChar hr2, promoOfChar_promoChar h3]
    simp [hsrc, hdst]

theorem uciDecode_legal {pos : ChessPos} {s : String} {m : CMove}
    (h : uciDecode pos s = some m) : isLegalMove pos m = true := by
  unfold uciDecode at h
  split at h
  · simp at h
  split at h
  · rename_i hl
    cases h
    exact hl
  · simp at h

theorem uciDecode_of_legal {pos : ChessPos} {m : CMove}
    (h : isLegalMove pos m = true) : uciDecode pos (uciOfMove m) = some m := by
  obtain ⟨h1, h2, h3⟩ := isPseudoLegal_bounds (isLegalMove_pseudo h)
  unfold uciDecode
  rw [parse_uciOfMove h1 h2 h3]
  simp [h]

theorem sanDecode_legal {pos : ChessPos} {s : String} {m : CMove}
    (h : sanDecode pos s = some m) : isLegalMove pos m = true := by
  have hm := List.mem_of_find?_eq_some h
  unfold legalMovesList at hm
  rw [List.mem_flatMap] at hm
  obtain ⟨sq, -, hmem⟩ := hm
  exact (List.mem_filter.mp hmem).2

theorem applyUciStr_some {p q : ChessPos} {s : String}
    (h : applyUciStr p s = some q) :
    ∃ m, uciDecode p s = some m ∧ q = applyMove p m := by
  unfold applyUciStr at h
  cases hd : uciDecode p s with
  | none => rw [hd] at h; simp at h
  | some m =>
    rw [hd] at h
    simp only [Option.map, Option.some.injEq] at h
    exact ⟨m, rfl, h.symm⟩

theorem applyUciStr_turn {p q : ChessPos} {s : String}
    (h : applyUciStr p s = some q) : q.turn = otherColor p.turn := by
  obtain ⟨m, hd, hq⟩ := applyUciStr_some h
  rw [hq]
  exact applyMove_turn (isLegalMove_pseudo (uciDecode_legal hd))

theorem otherColor_otherColor (c : PColor) : otherColor (otherColor c) = c := by
  cases c <;> rfl

theorem foldl_replay_turn : ∀ (ms : List String) (p0 p : ChessPos),
    List.foldlM applyUciStr p0 ms = some p →
    p.turn = if ms.length % 2 = 0 then p0.turn else otherColor p0.turn := by
  intro ms
  induction ms with
  | nil =>
    intro p0 p h
    simp only [List.foldlM_nil, pure, Option.some.injEq] at h
    subst h
    simp
  | cons a t ih =>
    intro p0 p h
    rw [List.foldlM_cons] at h
    cases hq : applyUciStr p0 a with
    | none => rw [hq] at h; simp [bind] at h
    | some q =>
      rw [hq] at h
      simp only [bind, Option.bind_some] at h
      have ht := ih q p h
      have hqa := applyUciStr_turn hq
      rw [ht, hqa, List.length_cons]
      by_cases he : t.length % 2 = 0
      · have h1 : (t.length + 1) % 2 ≠ 0 := by omega
        rw [if_pos he, if_neg h1]
      · have h1 : (t.length + 1) % 2 = 0 := by omega
        rw [if_neg he, if_pos h1, otherColor_otherColor]

theorem replay_turn {ms : List String} {p : ChessPos} (h : replayMoves ms = some p) :
    p.turn = if ms.length % 2 = 0 then PColor.white else PColor.black :=
  foldl_replay_turn ms startPos p h

theorem replayMoves_snoc {ms : List String} {p q : ChessPos} {u : String}
    (hrep : replayMoves ms = some p) (happ : applyUciStr p u = some q) :
    replayMoves (ms ++ [u]) = some q := by
  unfold replayMoves at hrep ⊢
  rw [List.foldlM_append, hrep]
  simp [bind, List.foldlM, happ, pure]

/-! ### Lemmas about the transaction body -/

theorem commitMove_movesUCI (cur : Game) (u s : String) (p2 : ChessPos) (now : Nat) :
    (commitMove cur u s p2 now).movesUCI = cur.movesUCI ++ [u] := by
  unfold commitMove
  cases o : outcomeOf p2 with
  | none => simp
  | some oc => cases oc <;> simp

theorem commitMove_movesSAN (cur : Game) (u s : String) (p2 : ChessPos) (now : Nat) :
    (commitMove cur u s p2 now).movesSAN = cur.movesSAN ++ [s] := by
  unfold commitMove
  cases o : outcomeOf p2 with
  | none => simp
  | some oc => cases oc <;> simp

theorem commitMove_fen (cur : Game) (u s : String) (p2 : ChessPos) (now : Nat) :
    (commitMove cur u s p2 now).fen = fenOf p2 := by
  unfold commitMove
  cases o : outcomeOf p2 with
  | none => simp
  | some oc => cases oc <;> simp

theorem commitMove_turn (cur : Game) (u s : String) (p2 : ChessPos) (now : Nat) :
    (commitMove cur u s p2 now).turn = colorFrom p2.turn := by
  unfold commitMove
  cases o : outcomeOf p2 with
  | none => simp
  | some oc => cases oc <;> simp

/-- Inversion for a committed move transaction: a commit always comes from a
successful replay of the stored UCI list, a legal decode of some UCI text, and
a `commitMove` of the applied position with that text appended. -/
theorem playMoveTx_ok_inv {oldLen : Nat} {userID roomID moveStr : String} {now : Nat}
    {cur g' : Game} {t : String}
    (h : playMoveTx oldLen userID roomID moveStr now cur = .ok g' t) :
    cur.movesUCI.length = oldLen ∧
    ∃ pos mv u s, replayMoves cur.movesUCI = some pos ∧
      uciDecode pos u = some mv ∧
      g' = commitMove cur u s (applyMove pos mv) now := by
  simp only [playMoveTx] at h
  split at h
  · simp at h
  split at h
  · simp at h
  rename_i hlen
  rw [Ne, not_not] at hlen
  refine ⟨hlen, ?_⟩
  split at h
  · simp at h
  split at h
  · simp at h
  split at h
  · simp at h
  split at h
  · simp at h
  rename_i pos hpos
  split at h
  · simp at h
  split at h
  · rename_i mv hmv
    simp only [TxResult.ok.injEq] at h
    exact ⟨pos, mv, asciiLower (goTrim moveStr), sanEncode pos mv, hpos, hmv, h.1.symm⟩
  rename_i hnouci
  split at h
  · simp at h
  rename_i mv hsan
  simp only [TxResult.ok.injEq] at h
  have hleg := sanDecode_legal hsan
  exact ⟨pos, mv, uciOfMove mv, sanEncode pos mv, hpos, uciDecode_of_legal hleg, h.1.symm⟩

/-- The state invariant maintained by the match core: parallel move lists, a
replayable UCI list whose final position carries the stored turn, and (once a
move exists) the stored FEN. -/
def InvGame (g : Game) : Prop :=
  g.movesUCI.length = g.movesSAN.length ∧
  ∃ p, replayMoves g.movesUCI = some p ∧ g.turn = colorFrom p.turn ∧
    (g.movesUCI ≠ [] → g.fen = fenOf p)

theorem reachable_inv {g : Game} (h : ReachableGame g) : InvGame g := by
  induction h with
  | created id coin o r cid cn tid tn cc now hch htg =>
    exact ⟨rfl, startPos, rfl, rfl, fun hne => absurd rfl hne⟩
  | step hg hok ih =>
    obtain ⟨hlen, p, hrep, hturn, hfen⟩ := ih
    obtain ⟨-, pos, mv, u, s, hpos, hdec, hg'⟩ := playMoveTx_ok_inv hok
    rw [hrep] at hpos
    cases hpos
    have happ : applyUciStr p u = some (applyMove p mv) := by
      unfold applyUciStr
      rw [hdec]
      rfl
    subst hg'
    refine ⟨?_, applyMove p mv, ?_, ?_, ?_⟩
    · rw [commitMove_movesUCI, commitMove_movesSAN]
      simp [hlen]
    · rw [commitMove_movesUCI]
      exact replayMoves_snoc hrep happ
    · exact commitMove_turn ..
    · intro hne
      exact commitMove_fen ..

/-! ### Concrete demonstration games -/

def demoBase : Game := mkGame "pvp-1-abc" false "100" "200" "u1" "Alice" "u2" "Bob" "white" 0

def demoG1 : Game :=
  { id := "pvp-1-abc"
    fen := "rnbqkbnr/pppppppp/8/8/4P3/8/PPPP1PPP/RNBQKBNR b KQkq e3 0 1"
    movesUCI := ["e2e4"]
    movesSAN := ["e4"]
    turn := .black
    status := .active
    whiteID := "u1"
    whiteName := "Alice"
    blackID := "u2"
    blackName := "Bob"
    originRoom := "100"
    resolveRoom := "200"
    createdAt := 0
    updatedAt := 1
    winner := ""
    outcome := "" }

theorem demoTx_ok : playMoveTx 0 "u1" "100" "e2e4" 1 demoBase = .ok demoG1 "Alice: e2e4" := by
  rfl

theorem reach_demoBase : ReachableGame demoBase :=
  ReachableGame.created "pvp-1-abc" false "100" "200" "u1" "Alice" "u2" "Bob" "white" 0
    (by decide) (by decide)

theorem reach_demoG1 : ReachableGame demoG1 := reach_demoBase.step demoTx_ok

def demoDone : Game :=
  { demoG1 with status := .resigned, winner := "u1", outcome := "resign", updatedAt := 2 }

/-! ### Claim theorems for the match core -/

/-- C1: position reconstruction used by the PvP match core is independent of
the stored FEN: for all FEN strings `f`, `f'` and every UCI move list `ms`,
`reconstruct f ms = reconstruct f' ms` — the position is always rebuilt from
the standard initial position and the `fen` field is never consulted. -/
theorem claim1_reconstruct_fen_independent (f f' : String) (ms : List String) :
    reconstruct f ms = reconstruct f' ms := rfl

/-- C2: terminal statuses are absorbing: when the stored game is FINISHED,
RESIGNED or DRAW, the `PlayMoveByRoom` and `ResignByRoom` transactions leave
the stored game (hence its status, winner and move lists) unchanged. -/
theorem claim2_terminal_statuses_absorbing (cur : Game)
    (h : cur.status = .finished ∨ cur.status = .resigned ∨ cur.status = .drawStatus)
    (oldLen : Nat) (userID roomID moveStr : String) (now now2 : Nat) :
    playStored oldLen userID roomID moveStr now cur = cur ∧
    resignStored userID roomID now2 cur = cur := by
  have hne : cur.status ≠ .active := by rcases h with h | h | h <;> simp [h]
  constructor
  · simp [playStored, playMoveTx, hne]
  · simp [resignStored, resignTx, hne]

theorem claim2_witness :
    playStored 1 "u2" "100" "e7e5" 3 demoDone = demoDone ∧
    resignStored "u2" "100" 3 demoDone = demoDone :=
  claim2_terminal_statuses_absorbing demoDone (Or.inr (Or.inl rfl)) 1 "u2" "100" "e7e5" 3 3

/-- C3: every state produced by the match core (creation plus any number of
committed moves) keeps the UCI and SAN move lists exactly the same length. -/
theorem claim3_moves_lists_parallel (g : Game) (h : ReachableGame g) :
    g.movesUCI.length = g.movesSAN.length :=
  (reachable_inv h).1

theorem claim3_witness : demoG1.movesUCI.length = demoG1.movesSAN.length :=
  claim3_moves_lists_parallel demoG1 reach_demoG1

/-- C4: round trip — in every game state reached by at least one committed
`PlayMoveByRoom` move, replaying the stored UCI list from the initial position
yields a position whose FEN equals the stored `fen` field. -/
theorem claim4_fen_round_trip (g : Game) (h : ReachableGame g) (hne : g.movesUCI ≠ []) :
    (replayMoves g.movesUCI).map fenOf = some g.fen := by
  obtain ⟨-, p, hrep, -, hfen⟩ := reachable_inv h
  rw [hrep]
  simp [hfen hne]

theorem claim4_witness : (replayMoves demoG1.movesUCI).map fenOf = some demoG1.fen :=
  claim4_fen_round_trip demoG1 reach_demoG1 (by decide)

/-- C5: turn parity — after move `n` (0-indexed) has been applied, the stored
`turn` is white exactly when `n` is odd and black exactly when `n` is even
(white moves first). -/
theorem claim5_turn_parity (g : Game) (h : ReachableGame g) (n : Nat)
    (hn : g.movesUCI.length = n + 1) :
    (g.turn = GameColor.white ↔ n % 2 = 1) ∧
    (g.turn = GameColor.black ↔ n % 2 = 0) := by
  obtain ⟨-, p, hrep, hturn, -⟩ := reachable_inv h
  have hpt := replay_turn hrep
  rw [hn] at hpt
  by_cases hpar : n % 2 = 1
  · have h0 : (n + 1) % 2 = 0 := by omega
    rw [if_pos h0] at hpt
    rw [hturn, hpt]
    refine ⟨?_, ?_⟩ <;> simp [colorFrom] <;> omega
  · have h0 : (n + 1) % 2 ≠ 0 := by omega
    rw [if_neg h0] at hpt
    rw [hturn, hpt]
    refine ⟨?_, ?_⟩ <;> simp [colorFrom] <;> omega

theorem claim5_witness : demoG1.turn = GameColor.black ↔ 0 % 2 = 0 :=
  (claim5_turn_parity demoG1 reach_demoG1 0 (by decide)).2

/-! ### Association-list state store

Redis keys become association lists; Redis sets become insertion-ordered lists
without duplicates (set membership is all the verified claims depend on). -/

def alGet {α : Type} (l : List (String × α)) (k : String) : Option α :=
  (l.find? fun p => p.1 = k).map (·.2)

def alSet {α : Type} (l : List (String × α)) (k : String) (v : α) : List (String × α) :=
  if l.any fun p => p.1 = k then l.map fun p => if p.1 = k then (k, v) else p
  else l ++ [(k, v)]

def setAdd (l : List (String × List String)) (k v : String) : List (String × List String) :=
  let cur := (alGet l k).getD []
  alSet l k (if v ∈ cur then cur else cur ++ [v])

def firstSome {α β : Type} : List α → (α → Option β) → Option β
  | [], _ => none
  | a :: t, f => match f a with | some b => some b | none => firstSome t f

/-! ### Game store operations of the pvpchess manager -/

structure GameStore where
  games : List (String × Game)
  userIdx : List (String × List String)
deriving DecidableEq, Repr

def getGame (gs : GameStore) (id : String) : Option Game := alGet gs.games (goTrim id)

def saveGame (gs : GameStore) (g : Game) : GameStore :=
  { gs with games := alSet gs.games (goTrim g.id) g }

def indexParticipants (gs : GameStore) (id white black : String) : GameStore :=
  let gs1 :=
    if goTrim white ≠ "" then { gs with userIdx := setAdd gs.userIdx (goTrim white) id } else gs
  if goTrim black ≠ "" then { gs1 with userIdx := setAdd gs1.userIdx (goTrim black) id } else gs1

def createGameFromChallenge (gs : GameStore) (id : String) (coin : Bool)
    (originRoom resolveRoom challengerID challengerName targetID targetName
      colorChoice : String) (now : Nat) : Except String (Game × GameStore) :=
  if challengerID = "" ∨ targetID = "" then .error "invalid participants"
  else
    let g := mkGame id coin originRoom resolveRoom challengerID challengerName targetID
      targetName colorChoice now
    .ok (g, indexParticipants (saveGame gs g) g.id g.whiteID g.blackID)

/-- Most recently updated game of a list (the manager sorts by `UpdatedAt`
descending and takes the head; ties are broken arbitrarily there and by first
occurrence here). -/
def latestBy (l : List Game) : Option Game :=
  l.foldl
    (fun acc g =>
      match acc with
      | none => some g
      | some h => if h.updatedAt < g.updatedAt then some g else some h)
    none

def getActiveGameByUserInRoom (gs : GameStore) (userID room : String) : Option Game :=
  let u := goTrim userID
  let r := goTrim room
  if u = "" ∨ r = "" then none
  else
    let ids := (alGet gs.userIdx u).getD []
    let list := ids.filterMap fun id =>
      match getGame gs id with
      | some g =>
        if g.status = .active ∧ (g.originRoom = r ∨ g.resolveRoom = r) then some g else none
      | none => none
    latestBy list

/-! ### Channel lobby (`pvpchan`, current version, matching the package tests) -/

inductive ChannelState | lobby | active | chFinished | chAborted
deriving DecidableEq, Repr

structure ChannelMeta where
  id : String
  state : ChannelState
  createdAt : Nat
  creatorID : String
  creatorName : String
  creatorRoom : String
  whiteID : String
  whiteName : String
  blackID : String
  blackName : String
  gameID : String
deriving DecidableEq, Repr

structure ChanStore where
  metas : List (String × ChannelMeta)
  participants : List (String × List String)
  rooms : List (String × List String)
  userIdx : List (String × List String)
  lobby : List String
deriving DecidableEq, Repr

def loadMeta (st : ChanStore) (code : String) : Option ChannelMeta :=
  alGet st.metas (goTrim code)

def saveMeta (st : ChanStore) (code : String) (meta : ChannelMeta) : ChanStore :=
  { st with metas := alSet st.metas (goTrim code) meta }

def chParticipants (st : ChanStore) (code : String) : List String :=
  (alGet st.participants (goTrim code)).getD []

def chRooms (st : ChanStore) (code : String) : List String :=
  (alGet st.rooms (goTrim code)).getD []

def codesByUser (st : ChanStore) (user : String) : List String :=
  (alGet st.userIdx (goTrim user)).getD []

def addRoomCh (st : ChanStore) (code room : String) : ChanStore :=
  if goTrim room = "" then st else { st with rooms := setAdd st.rooms (goTrim code) room }

def addParticipant (st : ChanStore) (code userID : String) : ChanStore :=
  if goTrim userID = "" then st
  else
    { st with
      participants := setAdd st.participants (goTrim code) userID
      userIdx := setAdd st.userIdx (goTrim userID) code }

def addLobby (st : ChanStore) (code : String) : ChanStore :=
  if goTrim code = "" then st
  else { st with lobby := if code ∈ st.lobby then st.lobby else st.lobby ++ [code] }

def removeLobby (st : ChanStore) (code : String) : ChanStore :=
  if goTrim code = "" then st else { st with lobby := st.lobby.filter fun c => c ≠ code }

/-- Combined system state: channel store plus game store. -/
structure SysState where
  chan : ChanStore
  games : GameStore
deriving DecidableEq, Repr

inductive LobbyErr
  | invalidArgs
  | channelGone
  | channelActive
  | full
  | playerBusyInRoom
  | creatorHasLobby
  | allocFailed
  | createFailed (msg : String)
deriving DecidableEq, Repr

structure MakeRes where
  code : String
  meta : ChannelMeta
deriving DecidableEq, Repr

structure JoinRes where
  started : Bool
  gameID : String
  meta : ChannelMeta
deriving DecidableEq, Repr

/-- Duplicate-lobby precondition of `Make`: some code in the caller's channel
index whose meta is in LOBBY state with the caller as creator. -/
def hasCreatorLobby (st : SysState) (userID : String) : Bool :=
  (codesByUser st.chan userID).any fun c =>
    match loadMeta st.chan c with
    | some m => m.state = ChannelState.lobby && goTrim m.creatorID = goTrim userID
    | none => false

/-- Allocation loop of `Make`: up to five generated codes are tried with
`SetNX`; on the first free code the channel meta, room, creator participant and
lobby-index entries are written. -/
def makeAttempts (st : SysState) (room userID userName : String) (now : Nat) :
    List String → Except LobbyErr MakeRes × SysState
  | [] => (.error .allocFailed, st)
  | c :: rest =>
    if (loadMeta st.chan c).isSome then makeAttempts st room userID userName now rest
    else
      let meta : ChannelMeta :=
        { id := c, state := .lobby, createdAt := now, creatorID := userID,
          creatorName := userName, creatorRoom := room, whiteID := "", whiteName := "",
          blackID := "", blackName := "", gameID := "" }
      let ch1 := saveMeta st.chan c meta
      let ch2 := addRoomCh ch1 c room
      let ch3 := addParticipant ch2 c userID
      let ch4 := addLobby ch3 c
      (.ok ⟨c, meta⟩, { st with chan := ch4 })

/-- `Make` of the lobby manager: argument check, busy-in-room check,
duplicate-creator-lobby check, then code allocation.  The generated candidate
codes and the clock are explicit inputs. -/
def lobbyMake (st : SysState) (room userID userName : String) (colorPref : String)
    (codes : List String) (now : Nat) : Except LobbyErr MakeRes × SysState :=
  if goTrim room = "" ∨ goTrim userID = "" then (.error .invalidArgs, st)
  else if (getActiveGameByUserInRoom st.games userID room).isSome then
    (.error .playerBusyInRoom, st)
  else if hasCreatorLobby st userID then (.error .creatorHasLobby, st)
  else makeAttempts st room userID userName now (codes.take 5)

structure GenInputs where
  coin : Bool
  gameId : String
deriving DecidableEq, Repr

/-- `Join` of the lobby manager.  The color preference argument is received and
never used (the color choice handed to game creation is hard-coded to
`"random"`); the crypto coin and generated game id are explicit inputs. -/
def lobbyJoin (st : SysState) (room code0 userID userName : String) ( pref : String)
    (gen : GenInputs) (now : Nat) : Except LobbyErr JoinRes × SysState :=
  let code := goTrim code0
  if room = "" ∨ code = "" ∨ userID = "" then (.error .invalidArgs, st)
  else
    match loadMeta st.chan code with
    | none => (.error .channelGone, st)
    | some meta =>
      if meta.state ≠ .lobby then (.error .channelActive, st)
      else if (chParticipants st.chan code).length ≥ 2 then (.error .full, st)
      else
        let ch1 :=
          { st.chan with
            participants := setAdd st.chan.participants code userID
            rooms := setAdd st.chan.rooms code room
            userIdx := setAdd st.chan.userIdx (goTrim userID) code }
        let ch2 := addRoomCh ch1 code room
        match loadMeta ch2 code with
        | none => (.error .channelGone, { st with chan := ch2 })
        | some meta2 =>
          if (chParticipants ch2 code).length < 2 ∨ meta2.gameID ≠ "" then
            (.ok ⟨false, meta2.gameID, meta2⟩, { st with chan := ch2 })
          else
            let challengerID := meta2.creatorID
            let challengerName := meta2.creatorName
            if (getActiveGameByUserInRoom st.games userID room).isSome then
              (.error .playerBusyInRoom, { st with chan := ch2 })
            else if (getActiveGameByUserInRoom st.games challengerID
                meta2.creatorRoom).isSome then
              (.error .playerBusyInRoom, { st with chan := ch2 })
            else
              match createGameFromChallenge st.games gen.gameId gen.coin meta2.creatorRoom
                room challengerID challengerName userID userName "random" now with
              | .error e => (.error (.createFailed e), { st with chan := ch2 })
              | .ok (g, gs2) =>
                let meta3 :=
                  { meta2 with
                    whiteID := g.whiteID, whiteName := g.whiteName,
                    blackID := g.blackID, blackName := g.blackName,
                    state := .active, gameID := g.id }
                let ch3 := saveMeta ch2 code meta3
                let ch4 := removeLobby ch3 code
                (.ok ⟨true, g.id, meta3⟩, { chan := ch4, games := gs2 })

/-! ### Claims about the lobby -/

def c6Game : Game :=
  { id := "pvp-7"
    fen := "startpos"
    movesUCI := []
    movesSAN := []
    turn := .white
    status := .active
    whiteID := "u1"
    whiteName := "Alice"
    blackID := "u9"
    blackName := "Zoe"
    originRoom := "100"
    resolveRoom := "300"
    createdAt := 0
    updatedAt := 0
    winner := ""
    outcome := "" }

def c6Meta : ChannelMeta :=
  { id := "CH-AAAAAA", state := .lobby, createdAt := 0, creatorID := "u1",
    creatorName := "Alice", creatorRoom := "100", whiteID := "", whiteName := "",
    blackID := "", blackName := "", gameID := "" }

def c6Chan : ChanStore :=
  { metas := [("CH-AAAAAA", c6Meta)]
    participants := [("CH-AAAAAA", ["u1"])]
    rooms := [("CH-AAAAAA", ["100"])]
    userIdx := [("u1", ["CH-AAAAAA"])]
    lobby := ["CH-AAAAAA"] }

/-- State where user `u1` is creator of LOBBY channel `CH-AAAAAA` and also has
an ACTIVE game in room `100` (reachable: create a lobby, then join someone
else's lobby from the same room). -/
def c6State : SysState :=
  { chan := c6Chan
    games :=
      { games := [("pvp-7", c6Game)]
        userIdx := [("u1", ["pvp-7"]), ("u9", ["pvp-7"])] } }

/-- State where user `u1` is creator of LOBBY channel `CH-AAAAAA` and has no
active game anywhere. -/
def c6LobbyOnly : SysState := { chan := c6Chan, games := { games := [], userIdx := [] } }

/-- C6 counterexample: the caller `u1` does have a LOBBY channel they created,
yet `Make` fails with `PlayerBusyInRoom` (the busy-in-room precondition is
checked first), not with `CreatorHasLobby` as the claim requires. -/
theorem claim6_counterexample :
    hasCreatorLobby c6State "u1" = true ∧
    (lobbyMake c6State "100" "u1" "Alice" "random" ["CH-BBBBBB"] 5).1 =
      .error .playerBusyInRoom ∧
    (Except.error LobbyErr.playerBusyInRoom : Except LobbyErr MakeRes) ≠
      .error .creatorHasLobby := by
  refine ⟨by decide, rfl, by simp⟩

/-- C6 amended: whenever the calling user already has an (indexed) LOBBY
channel they created, `Make` fails and creates nothing; the error is
`CreatorHasLobby` unless the user also has an ACTIVE game in the calling room,
in which case the earlier check fails with `PlayerBusyInRoom`.  Hence `Make`
never gives a user a second LOBBY channel. -/
theorem claim6_make_blocks_duplicate_lobby (st : SysState)
    (room userID userName colorPref : String) (codes : List String) (now : Nat)
    (hroom : goTrim room ≠ "") (huser : goTrim userID ≠ "")
    (hlob : hasCreatorLobby st userID = true) :
    (lobbyMake st room userID userName colorPref codes now).2 = st ∧
    ((getActiveGameByUserInRoom st.games userID room).isSome = true →
      (lobbyMake st room userID userName colorPref codes now).1 =
        .error .playerBusyInRoom) ∧
    ((getActiveGameByUserInRoom st.games userID room).isSome = false →
      (lobbyMake st room userID userName colorPref codes now).1 =
        .error .creatorHasLobby) := by
  unfold lobbyMake
  rw [if_neg (by simp [hroom, huser])]
  by_cases hb : (getActiveGameByUserInRoom st.games userID room).isSome = true
  · rw [if_pos hb]
    exact ⟨rfl, fun _ => rfl, fun hf => absurd hb (by simp [hf])⟩
  · rw [if_neg hb, if_pos hlob]
    exact ⟨rfl, fun ht => absurd ht hb, fun _ => rfl⟩

theorem claim6_witness :
    (lobbyMake c6LobbyOnly "100" "u1" "Alice" "random" ["CH-BBBBBB"] 5).2 = c6LobbyOnly ∧
    (lobbyMake c6LobbyOnly "100" "u1" "Alice" "random" ["CH-BBBBBB"] 5).1 =
      .error .creatorHasLobby :=
  ⟨(claim6_make_blocks_duplicate_lobby c6LobbyOnly "100" "u1" "Alice" "random"
      ["CH-BBBBBB"] 5 (by decide) (by decide) (by decide)).1,
   (claim6_make_blocks_duplicate_lobby c6LobbyOnly "100" "u1" "Alice" "random"
      ["CH-BBBBBB"] 5 (by decide) (by decide) (by decide)).2.2 (by decide)⟩

/-- C7: the color-preference argument of `Join` has no effect whatsoever — two
calls differing only in the preference (state, inputs, generated id and coin
flip equal) return identical results and states, because the preference is
dropped and game creation is always asked for random assignment. -/
theorem claim7_join_pref_ignored (st : SysState) (room code userID userName : String)
    (p1 p2 : String) (gen : GenInputs) (now : Nat) :
    lobbyJoin st room code userID userName p1 gen now =
      lobbyJoin st room code userID userName p2 gen now := rfl

/-! ### Broadcast fanout helpers (part_020) -/

/-- `MetaByGame`: scan both participants' channel indices for a channel whose
bound game id matches. -/
def metaByGame (st : SysState) (g : Game) : Option (ChannelMeta × String) :=
  firstSome [goTrim g.whiteID, goTrim g.blackID] fun uid =>
    if uid = "" then none
    else
      firstSome (codesByUser st.chan uid) fun code =>
        match loadMeta st.chan code with
        | some meta => if goTrim meta.gameID = goTrim g.id then some (meta, code) else none
        | none => none

/-- `RoomsByUserAndGame`: rooms of the first indexed channel bound to the game. -/
def roomsByUserAndGame (st : SysState) (userID gameID : String) : List String :=
  (firstSome (codesByUser st.chan userID) fun c =>
    match loadMeta st.chan c with
    | some m => if m.gameID = gameID then some (chRooms st.chan c) else none
    | none => none).getD []

/-- Dedup accumulator shared by `mergeFanoutRooms` and `prioritizeRooms`: trim,
drop empties, keep first occurrence. -/
def addRoomAcc (acc : List String) (s : String) : List String :=
  let s' := goTrim s
  if s' = "" then acc else if s' ∈ acc then acc else acc ++ [s']

/-- `mergeFanoutRooms` merges the game's origin/resolve rooms into the list and
deduplicates.  The Go code collects into a map and iterates it, so the output
order is unspecified there; the model fixes first-insertion order, and every
claim-level conclusion other than the prioritized head is stated at membership
level only. -/
def mergeFanoutRooms (g : Game) (rooms : List String) : List String :=
  (rooms ++ [g.originRoom, g.resolveRoom]).foldl addRoomAcc []

/-- Room sources accumulated by `fanoutRooms` before merging: the extra rooms
(the command's own room), the bound channel's rooms, and both participants'
room-of-game lookups. -/
def baseFanout (st : SysState) (g : Game) (extras : List String) : List String :=
  (extras ++
    (match metaByGame st g with
     | some (_, code) => chRooms st.chan code
     | none => []) ++
    roomsByUserAndGame st g.whiteID g.id) ++
  roomsByUserAndGame st g.blackID g.id

def fanoutRooms (st : SysState) (g : Game) (extras : List String) : List String :=
  mergeFanoutRooms g (baseFanout st g extras)

/-- `prioritizeRooms`: the current room first, then the remaining rooms with
trim/empty/duplicate filtering. -/
def prioritizeRooms (rooms : List String) (current : String) : List String :=
  let cur := goTrim current
  if cur = "" then rooms else rooms.foldl addRoomAcc [cur]

/-- Everything the fanout list is built from, in accumulation order. -/
def fanoutSources (st : SysState) (g : Game) (roomID : String) : List String :=
  baseFanout st g [roomID] ++ [g.originRoom, g.resolveRoom]

/-- Broadcast room list as the C8 claim words it: the union of the channel's
stored rooms, both participants' room-of-game lookups and the originating room,
deduplicated preserving insertion order, with the originating room moved to
position 0. -/
def specBroadcastRooms (st : SysState) (g : Game) (roomID : String) : List String :=
  let union :=
    (match metaByGame st g with
     | some (_, code) => chRooms st.chan code
     | none => []) ++
    roomsByUserAndGame st g.whiteID g.id ++ roomsByUserAndGame st g.blackID g.id ++ [roomID]
  prioritizeRooms (union.foldl addRoomAcc []) roomID

/-! ### Trim idempotence and fold membership lemmas -/

theorem dropWhile_dropWhile {α : Type} (p : α → Bool) (l : List α) :
    (l.dropWhile p).dropWhile p = l.dropWhile p := by
  induction l with
  | nil => rfl
  | cons a t ih =>
    by_cases h : p a
    · simp [List.dropWhile_cons, h, ih]
    · simp [List.dropWhile_cons, h]

theorem trimLeftL_trimLeftL (l : List Char) : trimLeftL (trimLeftL l) = trimLeftL l :=
  dropWhile_dropWhile ..

theorem trimRightL_trimRightL (l : List Char) : trimRightL (trimRightL l) = trimRightL l := by
  unfold trimRightL
  rw [List.reverse_reverse, dropWhile_dropWhile]

theorem trimRightL_isPre (l : List Char) : trimRightL l <+: l := by
  have h1 : (l.reverse.dropWhile isGoSpace) <:+ l.reverse := List.dropWhile_suffix _
  have h2 := Iff.mpr List.reverse_prefix h1
  rw [List.reverse_reverse] at h2
  exact h2

theorem trimLeftL_of_trimmed {l : List Char} (h : trimLeftL l = l) :
    trimLeftL (trimRightL l) = trimRightL l := by
  cases hl : trimRightL l with
  | nil => rfl
  | cons a t =>
    obtain ⟨u, hu⟩ := trimRightL_isPre l
    rw [hl] at hu
    have hpa : isGoSpace a = false := by
      rw [← hu] at h
      unfold trimLeftL at h
      have hne := List.dropWhile_eq_self_iff.mp h (by simp)
      simpa using hne
    unfold trimLeftL
    rw [List.dropWhile_cons, if_neg (by simp [hpa])]

theorem goTrimL_goTrimL (l : List Char) : goTrimL (goTrimL l) = goTrimL l := by
  unfold goTrimL
  rw [trimLeftL_of_trimmed (trimLeftL_trimLeftL l), trimRightL_trimRightL]

theorem goTrim_goTrim (s : String) : goTrim (goTrim s) = goTrim s := by
  show (⟨goTrimL (goTrimL s.data)⟩ : String) = ⟨goTrimL s.data⟩
  rw [goTrimL_goTrimL]

theorem mem_foldl_addRoomAcc :
    ∀ (l acc : List String) (r : String),
      r ∈ l.foldl addRoomAcc acc ↔ r ∈ acc ∨ (r ≠ "" ∧ ∃ s ∈ l, goTrim s = r) := by
  intro l
  induction l with
  | nil => intro acc r; simp
  | cons a t ih =>
    intro acc r
    rw [List.foldl_cons, ih]
    unfold addRoomAcc
    simp only [List.mem_cons]
    by_cases ha : goTrim a = ""
    · rw [if_pos ha]
      constructor
      · rintro (h1 | ⟨hr, s, hs, hgs⟩)
        · exact Or.inl h1
        · exact Or.inr ⟨hr, s, Or.inr hs, hgs⟩
      · rintro (h1 | ⟨hr, s, hs | hs, hgs⟩)
        · exact Or.inl h1
        · subst hs; rw [ha] at hgs; exact absurd hgs.symm hr
        · exact Or.inr ⟨hr, s, hs, hgs⟩
    · rw [if_neg ha]
      by_cases hmem : goTrim a ∈ acc
      · rw [if_pos hmem]
        constructor
        · rintro (h1 | ⟨hr, s, hs, hgs⟩)
          · exact Or.inl h1
          · exact Or.inr ⟨hr, s, Or.inr hs, hgs⟩
        · rintro (h1 | ⟨hr, s, hs | hs, hgs⟩)
          · exact Or.inl h1
          · subst hs; rw [hgs] at hmem; exact Or.inl hmem
          · exact Or.inr ⟨hr, s, hs, hgs⟩
      · rw [if_neg hmem]
        constructor
        · rintro (h1 | ⟨hr, s, hs, hgs⟩)
          · rcases List.mem_append.mp h1 with h2 | h2
            · exact Or.inl h2
            · have : r = goTrim a := by simpa using h2
              exact Or.inr ⟨this ▸ ha, a, Or.inl rfl, this.symm⟩
          · exact Or.inr ⟨hr, s, Or.inr hs, hgs⟩
        · rintro (h1 | ⟨hr, s, hs | hs, hgs⟩)
          · exact Or.inl (List.mem_append_left _ h1)
          · subst hs
            exact Or.inl (List.mem_append_right _ (by simp [hgs]))
          · exact Or.inr ⟨hr, s, hs, hgs⟩

theorem addRoomAcc_cases (acc : List String) (s : String) :
    addRoomAcc acc s = acc ∨ addRoomAcc acc s = acc ++ [goTrim s] := by
  unfold addRoomAcc
  by_cases h1 : goTrim s = ""
  · exact Or.inl (by rw [if_pos h1])
  · by_cases h2 : goTrim s ∈ acc
    · exact Or.inl (by rw [if_neg h1, if_pos h2])
    · exact Or.inr (by rw [if_neg h1, if_neg h2])

theorem foldl_addRoomAcc_extends :
    ∀ (l acc : List String), ∃ tail, l.foldl addRoomAcc acc = acc ++ tail := by
  intro l
  induction l with
  | nil => intro acc; exact ⟨[], by simp⟩
  | cons a t ih =>
    intro acc
    rw [List.foldl_cons]
    rcases addRoomAcc_cases acc a with h | h
    · rw [h]; exact ih acc
    · rw [h]
      obtain ⟨tl, htl⟩ := ih (acc ++ [goTrim a])
      exact ⟨goTrim a :: tl, by rw [htl]; simp⟩

/-! ### Claims about the broadcast room list -/

def c8Game : Game := { c6Game with id := "pvp-8", resolveRoom := "999" }

def c8Meta : ChannelMeta :=
  { id := "CH-CCCCCC", state := .active, createdAt := 0, creatorID := "u1",
    creatorName := "Alice", creatorRoom := "100", whiteID := "u1", whiteName := "Alice",
    blackID := "u9", blackName := "Zoe", gameID := "pvp-8" }

/-- State where game `pvp-8` is bound to channel `CH-CCCCCC` whose stored
rooms set holds only `100` (the joiner-room entry can be missing after a TTL
lapse — the situation the fanout merge comment in the source describes). -/
def c8State : SysState :=
  { chan :=
      { metas := [("CH-CCCCCC", c8Meta)]
        participants := [("CH-CCCCCC", ["u1", "u9"])]
        rooms := [("CH-CCCCCC", ["100"])]
        userIdx := [("u1", ["CH-CCCCCC"]), ("u9", ["CH-CCCCCC"])]
        lobby := [] }
    games := { games := [("pvp-8", c8Game)], userIdx := [("u1", ["pvp-8"]), ("u9", ["pvp-8"])] } }

/-- C8 counterexample: for a game bound to a channel whose stored rooms are
`{"100"}` and both participant lookups also give `{"100"}`, the code's
broadcast list for origin room `100` is `["100", "999"]` — it also contains
the game's resolve room — while the list built from the claim's union (channel
rooms, participant lookups, originating room) is `["100"]`. -/
theorem claim8_counterexample :
    prioritizeRooms (fanoutRooms c8State c8Game ["100"]) "100" ≠
      specBroadcastRooms c8State c8Game "100" := by decide

/-- C8 amended: the broadcast list places the (trimmed) originating room at
position 0, and as a set it consists of exactly the trimmed non-empty entries
drawn from the originating room, the bound channel's stored rooms, both
participants' room-of-game lookups, and additionally the game's own origin and
resolve rooms; the relative order of the non-head entries is unspecified in
the code (Go map iteration) and fixed to first insertion in this model. -/
theorem claim8_fanout_room_set (st : SysState) (g : Game) (roomID : String)
    (h : goTrim roomID ≠ "") :
    (prioritizeRooms (fanoutRooms st g [roomID]) roomID).head? = some (goTrim roomID) ∧
    ∀ r, r ∈ prioritizeRooms (fanoutRooms st g [roomID]) roomID ↔
      (r ≠ "" ∧ ∃ s ∈ fanoutSources st g roomID, goTrim s = r) := by
  have hpr : prioritizeRooms (fanoutRooms st g [roomID]) roomID =
      (fanoutRooms st g [roomID]).foldl addRoomAcc [goTrim roomID] := by
    simp only [prioritizeRooms]
    rw [if_neg h]
  have hL0 : ∀ s, s ∈ fanoutRooms st g [roomID] ↔
      (s ≠ "" ∧ ∃ s0 ∈ fanoutSources st g roomID, goTrim s0 = s) := by
    intro s
    show s ∈ (baseFanout st g [roomID] ++ [g.originRoom, g.resolveRoom]).foldl addRoomAcc [] ↔ _
    rw [mem_foldl_addRoomAcc]
    simp [fanoutSources]
  constructor
  · obtain ⟨tl, htl⟩ := foldl_addRoomAcc_extends (fanoutRooms st g [roomID]) [goTrim roomID]
    rw [hpr, htl]
    simp
  · intro r
    rw [hpr, mem_foldl_addRoomAcc]
    constructor
    · rintro (h1 | ⟨hr, s, hsL, hgs⟩)
      · have hreq : r = goTrim roomID := by simpa using h1
        refine ⟨hreq ▸ h, roomID, ?_, hreq.symm⟩
        simp [fanoutSources, baseFanout]
      · obtain ⟨hs, s0, hs0, hgs0⟩ := (hL0 s).mp hsL
        refine ⟨hr, s0, hs0, ?_⟩
        rw [← hgs, ← hgs0, goTrim_goTrim]
    · rintro ⟨hr, s0, hs0, hgs0⟩
      right
      refine ⟨hr, r, (hL0 r).mpr ⟨hr, s0, hs0, hgs0⟩, ?_⟩
      rw [← hgs0, goTrim_goTrim]

theorem claim8_witness :
    (prioritizeRooms (fanoutRooms c8State c8Game ["100"]) "100").head? =
      some (goTrim "100") :=
  (claim8_fanout_room_set c8State c8Game "100" (by decide)).1

/-! ### Ingress router (ws.OnMessage handler of part_020)

Frames carry an optional structured JSON payload and an optional bare sender
display name.  The mutable sender cache and both dedup stores are threaded as
explicit inputs: `cachedName` is a TTL-valid cache hit for `(room|text)`,
`redisFresh` is the result of the cross-instance `SetNX`, and `localFresh`
tells whether the in-process window has not seen the frame. -/

structure MsgJSON where
  roomID : String
  chatID : String
  message : String
  userID : String
deriving DecidableEq, Repr

structure Frame where
  room : String
  msg : String
  sender : Option String
  json : Option MsgJSON
deriving DecidableEq, Repr

structure RouterCfg where
  allowedRooms : List String
  ignoreSenders : List String
  botPfx : String
deriving DecidableEq, Repr

/-- `sanitizeText`: strip zero-width characters, map NBSP to a space, trim. -/
def sanitizeText (s : String) : String :=
  if s = "" then s
  else
    goTrim ⟨s.data.filterMap fun c =>
      if c = Char.ofNat 0x200B ∨ c = Char.ofNat 0x200C ∨ c = Char.ofNat 0x200D ∨
         c = Char.ofNat 0x2060 ∨ c = Char.ofNat 0xFEFF then none
      else if c = Char.ofNat 0xA0 then some ' ' else some c⟩

/-- `sanitizeRoomID`: sanitize, then keep decimal digits only. -/
def sanitizeRoomID (s : String) : String :=
  if s = "" then ""
  else ⟨(sanitizeText s).data.filter fun c => decide ('0' ≤ c) && decide (c ≤ '9')⟩

def roomFallback (f : Frame) : String :=
  let sr := sanitizeRoomID f.room
  if sr ≠ "" then sr else sanitizeText f.room

def extractRoomID (f : Frame) : String :=
  match f.json with
  | some j =>
    let rid := sanitizeRoomID j.roomID
    if rid ≠ "" then rid
    else
      let cid := sanitizeRoomID j.chatID
      if cid ≠ "" then cid else roomFallback f
  | none => roomFallback f

def messageText (f : Frame) : String :=
  if goTrim f.msg ≠ "" then goTrim f.msg
  else
    match f.json with
    | some j => if goTrim j.message ≠ "" then goTrim j.message else ""
    | none => ""

def senderNameJson (f : Frame) : String :=
  match f.json with
  | some j => if goTrim j.userID ≠ "" then goTrim j.userID else "player"
  | none => "player"

def senderName (f : Frame) : String :=
  match f.sender with
  | some s => if goTrim s ≠ "" then goTrim s else senderNameJson f
  | none => senderNameJson f

/-- `strings.EqualFold`, modelled on ASCII case folding. -/
def equalFold (a b : String) : Bool := asciiLower a = asciiLower b

def isIgnoredSender (cfg : RouterCfg) (name : String) : Bool :=
  let s := goTrim name
  if s = "" then false
  else cfg.ignoreSenders.any fun ig => equalFold (goTrim ig) s

/-- `roomAllowed`: a structured payload is required, the extracted room id must
be purely numeric (`strconv.ParseInt` base 10; the int64 overflow bound is not
modelled), and must equal one of the allowed entries. -/
def roomAllowed (allowed : List String) (f : Frame) : Bool :=
  match f.json with
  | none => false
  | some _ =>
    let rid := extractRoomID f
    if rid = "" then false
    else if ¬(rid.data.all fun c => decide ('0' ≤ c) && decide (c ≤ '9')) then false
    else allowed.any fun r => r = rid

/-- Display name resolution: a TTL-valid cache hit for `(room|text)` wins,
otherwise the frame's own sender fields. -/
def resolvedDisplayUser (cachedName : Option String) (f : Frame) : String :=
  let rid := extractRoomID f
  let trimmed := messageText f
  let d0 :=
    match cachedName with
    | some n => if rid ≠ "" ∧ trimmed ≠ "" then n else ""
    | none => ""
  if goTrim d0 = "" then senderName f else d0

def dropPfx (s pfx : String) : String :=
  if s.startsWith pfx then s.drop pfx.length else s

/-- A frame is minimal when it has no structured payload with a room id. -/
def isMinimalFrame (f : Frame) : Bool :=
  match f.json with
  | none => true
  | some j => goTrim j.roomID = ""

def fieldsAux : List Char → List Char → List (List Char)
  | [], cur => if cur.isEmpty then [] else [cur.reverse]
  | c :: rest, cur =>
    if isGoSpace c then
      (if cur.isEmpty then fieldsAux rest [] else cur.reverse :: fieldsAux rest [])
    else fieldsAux rest (c :: cur)

/-- `strings.Fields`: split on white-space runs. -/
def fieldsGo (s : String) : List String := (fieldsAux s.data []).map fun l => ⟨l⟩

inductive Disposition
  | dropEmptyText
  | dropNoRoomMinimal
  | dropIgnoredSender
  | dropRoomNotAllowed
  | logOnlyNoPfx
  | dropDedupRedis
  | dropDedupLocal
  | dispatch (cmdToken : String)
deriving DecidableEq, Repr

/-- The ingress pipeline of the `ws.OnMessage` handler (part_020:219-373):
empty-text drop, minimal-frame room requirement, display-name resolution,
ignored-sender gate, room allow-list gate, command text gate, cross-instance
dedup, in-process dedup, then dispatch with the lowered first token. -/
def ingress (cfg : RouterCfg) (cachedName : Option String) (redisFresh localFresh : Bool)
    (f : Frame) : Disposition :=
  let rid := extractRoomID f
  let trimmed := messageText f
  if trimmed = "" then .dropEmptyText
  else
    if isMinimalFrame f = true ∧ rid = "" then .dropNoRoomMinimal
    else
      let displayUser := resolvedDisplayUser cachedName f
      if isIgnoredSender cfg displayUser then .dropIgnoredSender
      else if cfg.allowedRooms ≠ [] ∧ roomAllowed cfg.allowedRooms f = false then
        .dropRoomNotAllowed
      else
        let spfx := sanitizeText cfg.botPfx
        let smsg := sanitizeText trimmed
        if ¬smsg.startsWith spfx then .logOnlyNoPfx
        else if rid ≠ "" ∧ trimmed ≠ "" ∧ redisFresh = false then .dropDedupRedis
        else if rid ≠ "" ∧ trimmed ≠ "" ∧ localFresh = false then .dropDedupLocal
        else
          let raw := goTrim (dropPfx smsg spfx)
          let cmdToken :=
            if raw = "" then ""
            else
              match fieldsGo raw with
              | [] => ""
              | p :: _ => asciiLower p
          .dispatch cmdToken

/-! ### Claims about the gate order -/

def c9Cfg : RouterCfg :=
  { allowedRooms := ["100"], ignoreSenders := ["Iris"], botPfx := "!체스" }

def c9CfgNoIgnore : RouterCfg :=
  { allowedRooms := ["100"], ignoreSenders := [], botPfx := "!체스" }

def c9Frame : Frame :=
  { room := ""
    msg := "!체스 방 생성"
    sender := some "Iris"
    json := some { roomID := "200", chatID := "", message := "!체스 방 생성", userID := "iris-id" } }

/-- C9 counterexample: a frame in a room outside the allow-list whose sender is
`Iris` is dropped by the sender gate, not by the room gate — the sender gate
runs first, contrary to the order the claim asserts. -/
theorem claim9_counterexample :
    roomAllowed c9Cfg.allowedRooms c9Frame = false ∧
    ingress c9Cfg none true true c9Frame = .dropIgnoredSender ∧
    Disposition.dropIgnoredSender ≠ Disposition.dropRoomNotAllowed := by
  refine ⟨by decide, by decide, by decide⟩

/-- C9 amended: the sender gate precedes the room gate.  A frame that reaches
the gates (non-empty text, and a room id when the frame is minimal) in a
disallowed room is always dropped — by the sender gate when its resolved
display name is ignored, and by the room gate otherwise. -/
theorem claim9_gate_order (cfg : RouterCfg) (cachedName : Option String)
    (redisFresh localFresh : Bool) (f : Frame)
    (hne : cfg.allowedRooms ≠ [])
    (hroom : roomAllowed cfg.allowedRooms f = false)
    (htext : messageText f ≠ "")
    (hmin : ¬(isMinimalFrame f = true ∧ extractRoomID f = "")) :
    (ingress cfg cachedName redisFresh localFresh f = .dropIgnoredSender ∨
     ingress cfg cachedName redisFresh localFresh f = .dropRoomNotAllowed) ∧
    (isIgnoredSender cfg (resolvedDisplayUser cachedName f) = false →
      ingress cfg cachedName redisFresh localFresh f = .dropRoomNotAllowed) := by
  simp only [ingress]
  rw [if_neg htext, if_neg hmin]
  by_cases hig : isIgnoredSender cfg (resolvedDisplayUser cachedName f) = true
  · rw [if_pos hig]
    exact ⟨Or.inl rfl, fun hf => absurd hig (by simp [hf])⟩
  · rw [if_neg hig, if_pos ⟨hne, hroom⟩]
    exact ⟨Or.inr rfl, fun _ => rfl⟩

theorem claim9_witness :
    ingress c9CfgNoIgnore none true true c9Frame = .dropRoomNotAllowed :=
  (claim9_gate_order c9CfgNoIgnore none true true c9Frame (by decide) (by decide)
    (by decide) (by decide)).2 (by decide)

/-! ### Move-handler fanout decision (handlePvPMove, part_020:1020-1045) -/

/-- The handler fans out a board update only when the call returned no error,
a non-nil game, and the returned game's UCI list is strictly longer than the
length observed before the call; otherwise it sends the result text only. -/
def handlerFansOut (oldLen : Nat) (res : MoveCallResult) : Bool :=
  match res.err, res.game with
  | none, some g0 => decide (oldLen < g0.movesUCI.length)
  | _, _ => false

/-- Message-level rejections of a move transaction: concurrent conflict, wrong
turn, empty or illegal move text. -/
def isRejection : TxResult → Bool
  | .txFailed => true
  | .notYourTurn => true
  | .illegalMove _ => true
  | _ => false

/-- C10: a rejected move returns a nil error, the (non-nil) pre-call game —
whose `moves_uci` length is by construction the pre-call length — and a
non-empty user-facing text, so the handler's length comparison classifies it
as no-fanout; a committed move strictly grows the list, so the same
comparison classifies it as fanout. -/
theorem claim10_rejection_shape (g cur : Game) (userID roomID moveStr : String) (now : Nat) :
    (isRejection (playMoveTx g.movesUCI.length userID roomID moveStr now cur) = true →
      (playMoveByRoomOn g cur userID roomID moveStr now).err = none ∧
      (playMoveByRoomOn g cur userID roomID moveStr now).game = some g ∧
      (playMoveByRoomOn g cur userID roomID moveStr now).text ≠ "" ∧
      handlerFansOut g.movesUCI.length (playMoveByRoomOn g cur userID roomID moveStr now) =
        false) ∧
    (∀ g' t, playMoveTx g.movesUCI.length userID roomID moveStr now cur = .ok g' t →
      handlerFansOut g.movesUCI.length (playMoveByRoomOn g cur userID roomID moveStr now) =
        true) := by
  constructor
  · intro hrej
    cases htx : playMoveTx g.movesUCI.length userID roomID moveStr now cur with
    | txFailed =>
      refine ⟨?_, ?_, ?_, ?_⟩ <;> simp [playMoveByRoomOn, htx, handlerFansOut]
    | notYourTurn =>
      refine ⟨?_, ?_, ?_, ?_⟩ <;> simp [playMoveByRoomOn, htx, handlerFansOut]
    | illegalMove t0 =>
      refine ⟨?_, ?_, ?_, ?_⟩
      · simp [playMoveByRoomOn, htx]
      · simp [playMoveByRoomOn, htx]
      · simp only [playMoveByRoomOn, htx]
        by_cases h0 : goTrim t0 = ""
        · rw [if_pos h0]; simp
        · rw [if_neg h0]
          intro hcon
          rw [hcon] at h0
          exact h0 rfl
      · simp [playMoveByRoomOn, htx, handlerFansOut]
    | fatal e => rw [htx] at hrej; simp [isRejection] at hrej
    | ok g' t => rw [htx] at hrej; simp [isRejection] at hrej
  · intro g' t htx
    obtain ⟨hlen, pos, mv, u, s, -, -, hg'⟩ := playMoveTx_ok_inv htx
    have hgrow : g.movesUCI.length < g'.movesUCI.length := by
      rw [hg', commitMove_movesUCI]
      simp [hlen]
    simp [playMoveByRoomOn, htx, handlerFansOut, hgrow]

theorem claim10_witness :
    (playMoveByRoomOn demoBase demoBase "u2" "100" "e7e5" 1).err = none ∧
    (playMoveByRoomOn demoBase demoBase "u2" "100" "e7e5" 1).game = some demoBase ∧
    (playMoveByRoomOn demoBase demoBase "u2" "100" "e7e5" 1).text ≠ "" ∧
    handlerFansOut demoBase.movesUCI.length
      (playMoveByRoomOn demoBase demoBase "u2" "100" "e7e5" 1) = false :=
  (claim10_rejection_shape demoBase demoBase "u2" "100" "e7e5" 1).1 (by decide)

end CheeseBot
